import Mathlib

/-!
Verification development for the devioarts capacitor-tcpclient repository.

The repository ships several platform cores of one TCP client:
an Electron main-process client (Node sockets), two Android cores in Kotlin
(a current one and an older variant), and an iOS core in Swift, plus the
TypeScript bridge utilities.  The definitions below are shallow embeddings of
the functions the claims are about, translated from the sources:

  - the adaptive idle threshold and the inter-arrival sample ring of the
    request/response (RR) engines (Kotlin idleThresholdMs, Swift
    currentIdleThresholdMs);
  - the Kotlin (current core) writeAndRead receive loop, including its
    soTimeout updates and the try/finally restore block;
  - the Swift writeAndRead receive loop with its explicit idle check;
  - the Electron writeAndRead event machine (data / timer / error / close);
  - the Electron stream-data slicing handler and the Android bridge
    micro-batch flush;
  - disconnect, write and isConnected of the Electron core, the current
    Kotlin core and the Kotlin variant core;
  - the expect-option hex normalizers (TypeScript parseExpectBytes and
    Android Helpers.hexToBytes).

Time is modelled in integral milliseconds.  Blocking reads, poll outcomes and
socket errors are supplied as explicit event lists (one event per loop
iteration); the functions are total and executable, returning Option results
where a run may consume all supplied events without terminating.
-/

/-- Naive byte-pattern containment used by the matchers: Helpers.indexOf /
Helpers.indexOfRange on Android and Buffer.indexOf in the Electron core all
report whether the pattern occurs as a contiguous substring.  Mirrors the
scan of Helpers.indexOf: succeed if the needle is a prefix, else advance. -/
def bufHasPattern (pat : List Nat) : List Nat → Bool
  | [] => pat.isEmpty
  | c :: t => pat.isPrefixOf (c :: t) || bufHasPattern pat t

/-- Kotlin sample ring update (current Android core, writeAndRead):
interArr.add(dMs); if (interArr.size > 5) interArr.removeAt(0). -/
def kotlinPushSample (l : List Nat) (d : Nat) : List Nat :=
  let l2 := l ++ [d]
  if 5 < l2.length then l2.drop 1 else l2

/-- Swift sample ring update (iOS core, writeAndRead):
interArrivals.append(deltaMs);
if interArrivals.count > 5 then removeFirst(count - 5). -/
def swiftPushSample (l : List Nat) (d : Nat) : List Nat :=
  let l2 := l ++ [d]
  if 5 < l2.length then l2.drop (l2.length - 5) else l2

/-- Twice the median of the sorted samples, as computed by the Kotlin
idleThresholdMs / Swift currentIdleThresholdMs: for an odd count the middle
element (doubled here), for an even count the sum of the two middle elements
(the code halves it in floating point; we keep the exact doubled value). -/
def medianTwice (l : List Nat) : Nat :=
  let s := l.insertionSort (· ≤ ·)
  if l.length % 2 = 1 then 2 * s.getD (l.length / 2) 0
  else s.getD (l.length / 2 - 1) 0 + s.getD (l.length / 2) 0

/-- Kotlin idleThresholdMs / Swift currentIdleThresholdMs: 50 with no samples,
otherwise (median * 1.75).toInt() clamped into 50..200.  The Double
arithmetic of the sources is exact for these magnitudes: median is an
integer or an integer plus one half, and 1.75 = 7/4, so the truncation
toInt() equals the natural-number division by 8 of 7 * (2 * median). -/
def idleThresholdMs (l : List Nat) : Nat :=
  if l.isEmpty then 50
  else min 200 (max 50 (7 * medianTwice l / 8))

/-- The median of the samples as a rational, following the specification
wording: middle element of the sorted list, or the average of the two middle
elements for an even count. -/
def medianQ (l : List Nat) : ℚ :=
  let s := l.insertionSort (· ≤ ·)
  if l.length % 2 = 1 then (s.getD (l.length / 2) 0 : ℚ)
  else ((s.getD (l.length / 2 - 1) 0 : ℚ) + (s.getD (l.length / 2) 0 : ℚ)) / 2

/-- The adaptive idle threshold as the specification words it: the median of
the recent inter-arrival gaps multiplied by 1.75 and clamped into
[50 ms, 200 ms]; 50 ms when no samples exist. -/
def specIdleThresholdQ (l : List Nat) : ℚ :=
  if l.isEmpty then 50
  else min 200 (max 50 (medianQ l * (7 / 4)))

/-- State of the current Android (Kotlin) core that the claims touch:
socket / stream references, the reader coroutine, the RR exclusion flag and
the socket read timeout (soTimeout).  socketHealthy stands for
s.isConnected && !s.isClosed && s.inetAddress != null. -/
structure KState where
  socketPresent : Bool
  socketHealthy : Bool
  inputPresent : Bool
  readerActive : Bool
  rrInFlight : Bool
  soTimeout : Nat
deriving DecidableEq, Repr

/-- Disconnect reasons surfaced through the delegate. -/
inductive KReason where
  | manual
  | remote
  | errorR
deriving DecidableEq, Repr

/-- Errors of the Kotlin TcpError surface that the claims mention. -/
inductive KErr where
  | notConnected
  | busy
  | connectTimeout
  | closed
  | ioErr
deriving DecidableEq, Repr

/-- Outcome of one writeAndRead loop iteration of the Kotlin core. -/
inductive KResult where
  | ok (data : List Nat) (matched : Bool)
  | err (e : KErr)
deriving DecidableEq, Repr

/-- socket?.soTimeout = v with exceptions swallowed: a no-op once the socket
reference is gone. -/
def kotlinSetSoTimeout (st : KState) (v : Nat) : KState :=
  if st.socketPresent then { st with soTimeout := v } else st

/-- disconnectInternal of the current Kotlin core: remembers whether a socket
or reader existed, cancels the reader, closes and clears everything, and
notifies the delegate once iff something existed. -/
def kotlinDisconnectInternal707 (reason : KReason) (st : KState) :
    KState × List KReason :=
  let had := st.socketPresent || st.readerActive
  ({ st with socketPresent := false, socketHealthy := false,
             inputPresent := false, readerActive := false },
   if had then [reason] else [])

/-- Public disconnect of the current Kotlin core: cancels the reader, flushes
and closes, clears the references, and then calls
delegate?.onDisconnect(Manual) unconditionally (the bridge installs the
delegate at load, so the Manual event is emitted on every call). -/
def kotlinDisconnect707 (st : KState) : KState × List KReason :=
  ({ st with socketPresent := false, socketHealthy := false,
             inputPresent := false, readerActive := false },
   [KReason.manual])

/-- One blocking-read outcome inside the Kotlin RR receive loop: bytes
arriving at a given time, end of stream, or a SocketTimeoutException after
the configured soTimeout step. -/
inductive KOut where
  | data (now2 : Nat) (chunk : List Nat)
  | eof
  | stimeout
deriving DecidableEq, Repr

/-- One Kotlin RR loop iteration as seen by the environment: the clock value
sampled at the head of the iteration and the outcome of the read. -/
structure KEv where
  nowHead : Nat
  outcome : KOut
deriving DecidableEq, Repr

/-- The receive loop of writeAndRead in the current Kotlin core
(while (used < cap) { deadline check; step computation; soTimeout update;
read; accumulate; sample-ring update; early exits }).  buf is the collected
response, inter the inter-arrival ring, last the last-data clock value with
0 as the unset sentinel (lastDataAtNs = 0L in the source). -/
def kotlinRRLoop (expect : Option (List Nat → Bool)) (cap deadline : Nat) :
    List KEv → KState → List Nat → List Nat → Nat → Option (KResult × KState)
  | [], st, buf, _, _ =>
    if cap ≤ buf.length then some (KResult.ok buf false, st) else none
  | ev :: rest, st, buf, inter, last =>
    if cap ≤ buf.length then some (KResult.ok buf false, st)
    else
      if deadline ≤ ev.nowHead then
        if 0 < buf.length then some (KResult.ok buf false, st)
        else some (KResult.err KErr.connectTimeout, st)
      else
        let remain := deadline - ev.nowHead
        let step := if expect.isNone && decide (0 < buf.length)
                    then min (idleThresholdMs inter) remain
                    else min 200 remain
        let st1 := kotlinSetSoTimeout st (max 1 step)
        match ev.outcome with
        | KOut.eof => some (KResult.err KErr.closed, st1)
        | KOut.stimeout =>
          if expect.isNone && decide (0 < buf.length) then
            some (KResult.ok buf false, st1)
          else kotlinRRLoop expect cap deadline rest st1 buf inter last
        | KOut.data now2 chunk =>
          if chunk.length = 0 then
            kotlinRRLoop expect cap deadline rest st1 buf inter last
          else
            let buf' := buf ++ chunk.take (cap - buf.length)
            let inter' := if last ≠ 0 then kotlinPushSample inter (now2 - last)
                          else inter
            match expect with
            | some p =>
              if p buf' then some (KResult.ok buf' true, st1)
              else if cap ≤ buf'.length then some (KResult.ok buf' false, st1)
              else kotlinRRLoop expect cap deadline rest st1 buf' inter' now2
            | none =>
              if cap ≤ buf'.length then some (KResult.ok buf' false, st1)
              else kotlinRRLoop expect cap deadline rest st1 buf' inter' now2

/-- The finally block of the Kotlin writeAndRead: restore the pre-call
soTimeout (a no-op when the socket is gone), clear rrInFlight, and resume
the stream reader via startRead(lastChunkSize) when it had been suspended
and isConnected() still reports a live session (startRead itself returns
early when the reader is active or the input stream is gone; it sets
soTimeout to the configured read timeout, defaulted to 1000). -/
def kotlinFinally707 (prev rt : Nat) (suspendStream wasReading connAtEnd : Bool)
    (st : KState) : KState :=
  let st1 := kotlinSetSoTimeout st prev
  let st2 := { st1 with rrInFlight := false }
  if suspendStream && wasReading && connAtEnd && st2.inputPresent
      && !st2.readerActive then
    kotlinSetSoTimeout { st2 with readerActive := true }
      (if 0 < rt then rt else 1000)
  else st2

/-- The launched body of writeAndRead in the current Kotlin core, after the
preconditions (isConnected and the rrInFlight compare-and-set) succeeded:
remember the previous soTimeout, optionally cancel the reader, perform the
serialized write (writeOk is its outcome; a failure tears the session down),
run the receive loop, and run the finally block on every exit.  deadline is
the absolute clock value of the RR deadline; connAtEnd is the value
isConnected() reports inside the finally block. -/
def kotlinWriteAndRead707 (expect : Option (List Nat → Bool))
    (maxBytes : Int) (rt : Nat) (suspendStream writeOk connAtEnd : Bool)
    (deadline : Nat) (events : List KEv) (st0 : KState) :
    Option (KResult × KState) :=
  let cap := (if 0 < maxBytes then maxBytes else 4096).toNat
  let st1 := { st0 with rrInFlight := true }
  let prev := st1.soTimeout
  let wasReading := suspendStream && st1.readerActive
  let st2 := if wasReading then { st1 with readerActive := false } else st1
  if !writeOk then
    let st3 := (kotlinDisconnectInternal707 KReason.errorR st2).1
    some (KResult.err KErr.ioErr,
          kotlinFinally707 prev rt suspendStream wasReading connAtEnd st3)
  else
    match kotlinRRLoop expect cap deadline events st2 [] [] 0 with
    | none => none
    | some (r, st3) =>
      some (r, kotlinFinally707 prev rt suspendStream wasReading connAtEnd st3)

/-- Result record the Android bridge builds from a writeAndRead outcome:
on success bytesSent is the request length and bytesReceived the data
length; on failure bytesSent is the request length exactly when the error
is the RR timeout (TcpError.ConnectTimeout), otherwise 0. -/
structure BridgeRR where
  error : Bool
  bytesSent : Nat
  bytesReceived : Nat
  data : List Nat
  matched : Bool
deriving DecidableEq, Repr

/-- The Android bridge mapping of a Kotlin writeAndRead result. -/
def bridgeMapRR (req : List Nat) : KResult → BridgeRR
  | KResult.ok d m =>
    { error := false, bytesSent := req.length, bytesReceived := d.length,
      data := d, matched := m }
  | KResult.err e =>
    { error := true,
      bytesSent := if e = KErr.connectTimeout then req.length else 0,
      bytesReceived := 0, data := [], matched := false }

/-- Poll/recv outcomes of one iteration of the Swift (iOS) RR receive loop:
a poll tick with no readiness (carrying the clock value used by the idle
check), data arriving, peer EOF, EAGAIN, or a poll/recv error. -/
inductive SEv where
  | tick (now : Nat)
  | data (now : Nat) (chunk : List Nat)
  | eof
  | again
  | pollErr
  | recvErr
deriving DecidableEq, Repr

/-- Results of the Swift writeAndRead receive phase. -/
inductive SResult where
  | ok (data : List Nat) (matched : Bool)
  | closedErr
  | timeoutErr
  | posixErr
deriving DecidableEq, Repr

/-- The code after the Swift receive loop: an empty unmatched buffer with the
budget exhausted is a timeout failure, everything else resolves with the
collected bytes. -/
def swiftPostLoop (out : List Nat) (matched : Bool) (remain : Nat) : SResult :=
  if out.isEmpty && !matched && remain = 0 then SResult.timeoutErr
  else SResult.ok out matched

/-- The Swift writeAndRead receive loop
(while out.count < cap && remain > 0 { step = min(remain, 50); poll;
idle check on a silent tick; recv and accumulate on readiness }).
lastData is lastDataTime with none standing for Date.distantPast (whose
idle distance is unboundedly large), inter the inter-arrival ring. -/
def swiftRRLoop (expect : Option (List Nat → Bool)) (cap : Nat) :
    List SEv → List Nat → Nat → Option Nat → List Nat → Option SResult
  | [], out, remain, _, _ =>
    if cap ≤ out.length || remain = 0 then
      some (swiftPostLoop out false remain)
    else none
  | ev :: rest, out, remain, lastData, inter =>
    if cap ≤ out.length || remain = 0 then
      some (swiftPostLoop out false remain)
    else
      let remain' := remain - min remain 50
      match ev with
      | SEv.tick now =>
        if expect.isNone && !out.isEmpty then
          let idleOk : Bool := match lastData with
            | some t => decide (idleThresholdMs inter ≤ now - t)
            | none => true
          if idleOk then some (SResult.ok out false)
          else swiftRRLoop expect cap rest out remain' lastData inter
        else swiftRRLoop expect cap rest out remain' lastData inter
      | SEv.data now chunk =>
        let out' := out ++ chunk.take (min 4096 (cap - out.length))
        let inter' := match lastData with
          | some t => swiftPushSample inter (now - t)
          | none => inter
        match expect with
        | some ex =>
          if ex out' then some (swiftPostLoop out' true remain')
          else if cap ≤ out'.length then some (swiftPostLoop out' false remain')
          else swiftRRLoop expect cap rest out' remain' (some now) inter'
        | none =>
          if cap ≤ out'.length then some (swiftPostLoop out' false remain')
          else swiftRRLoop expect cap rest out' remain' (some now) inter'
      | SEv.eof => some SResult.closedErr
      | SEv.again => swiftRRLoop expect cap rest out remain' lastData inter
      | SEv.pollErr => some SResult.posixErr
      | SEv.recvErr => some SResult.posixErr

/-- Socket events observed by the Electron writeAndRead promise: a data
chunk, the single-shot timeout timer, a socket error, or the close event. -/
inductive ElEv where
  | data (chunk : List Nat)
  | timer
  | errorEv
  | closeEv
deriving DecidableEq, Repr

/-- The result object the Electron writeAndRead resolves with.  Note that it
carries no matched field, and that the failure path reports bytesRead as
null (none) with an empty data array. -/
structure ElRRResult where
  error : Bool
  errorMessage : Option String
  data : List Nat
  bytesWritten : Option Nat
  bytesRead : Option Nat
deriving DecidableEq, Repr

/-- finish(out) on the Electron success path: the concatenated chunks are
clipped by subarray(0, cap) and bytesRead is the clipped length. -/
def elFinishOk (cap reqLen : Nat) (cur : List Nat) : ElRRResult :=
  let res := cur.take cap
  { error := false, errorMessage := none, data := res,
    bytesWritten := some reqLen, bytesRead := some res.length }

/-- finish(null, err) on the Electron failure path: empty data, bytesWritten
still the full request length, bytesRead null. -/
def elFinishErr (reqLen : Nat) (msg : String) : ElRRResult :=
  { error := true, errorMessage := some msg, data := [],
    bytesWritten := some reqLen, bytesRead := none }

/-- The Electron writeAndRead event machine: onData accumulates chunks and
finishes immediately without a pattern, or on a pattern hit or the cap with
one; the timer, error and close events finish with a failure. -/
def electronRRLoop (expectBuf : Option (List Nat)) (cap reqLen : Nat) :
    List Nat → List ElEv → Option ElRRResult
  | _, [] => none
  | chunks, ev :: rest =>
    match ev with
    | ElEv.data c =>
      let cur := chunks ++ c
      match expectBuf with
      | some pat =>
        if bufHasPattern pat cur || cap ≤ cur.length then
          some (elFinishOk cap reqLen cur)
        else electronRRLoop expectBuf cap reqLen cur rest
      | none => some (elFinishOk cap reqLen cur)
    | ElEv.timer => some (elFinishErr reqLen "connect timeout")
    | ElEv.errorEv => some (elFinishErr reqLen "writeAndRead failed")
    | ElEv.closeEv => some (elFinishErr reqLen "connection closed")

/-- One slicing pass of the Electron stream data handler, with a fuel
argument (the chunk length suffices, since the handler advances by at least
one byte per part when the chunk size is positive):
for (off = 0; off < len; off += lim) emit chunk.subarray(off, off + lim). -/
def sliceGo : Nat → Nat → List Nat → List (List Nat)
  | 0, _, _ => []
  | _, _, [] => []
  | Nat.succ fuel, lim, c => c.take lim :: sliceGo fuel lim (c.drop lim)

/-- The Electron streamDataHandler: split one received buffer into
contiguous parts of at most lastChunkSize bytes, one tcpData event each,
in order. -/
def electronSliceChunk (lastChunkSize : Nat) (chunk : List Nat) :
    List (List Nat) :=
  sliceGo chunk.length lastChunkSize chunk

/-- The chunk limit the Electron startRead stores:
lastChunkSize = Math.max(1, chunkSize with default 4096). -/
def electronLastChunkSize (chunkSize : Option Nat) : Nat :=
  max 1 (chunkSize.getD 4096)

/-- flushPendingNow of the Android bridge: when the pending micro-batch is
non-empty, it is emitted in its entirety as one single tcpData event (no
slicing by the configured chunk size takes place). -/
def flushPendingNow (pending : List Nat) : List (List Nat) :=
  if 0 < pending.length then [pending] else []

/-- State of the Electron core relevant to the claims.  isOpen() is
sock != null && !sock.destroyed && !sock.connecting. -/
structure ElState where
  sockPresent : Bool
  destroyed : Bool
  connecting : Bool
  reading : Bool
  rrInFlight : Bool
  handlerAttached : Bool
  onCloseAttached : Bool
deriving DecidableEq, Repr

/-- Electron isOpen(): socket exists, not destroyed, not still connecting. -/
def elIsOpen (st : ElState) : Bool :=
  st.sockPresent && !st.destroyed && !st.connecting

/-- Disconnect events the Electron core sends to the renderer. -/
inductive ElReason where
  | manual
  | remote
  | errorR
deriving DecidableEq, Repr

/-- Electron stopRead(): detach the data handler and clear reading. -/
def electronStopRead (st : ElState) : ElState :=
  { st with handlerAttached := false, reading := false }

/-- Electron disconnect(): stop reading, take and null the socket reference;
when a socket existed, unhook its close handler, destroy it and emit the
manual disconnect event.  The call always resolves with
disconnected true and reading false (the Bool component). -/
def electronDisconnect (st : ElState) : ElState × List ElReason × Bool :=
  let st1 := electronStopRead st
  if st1.sockPresent then
    ({ st1 with sockPresent := false, onCloseAttached := false,
                destroyed := true }, [ElReason.manual], true)
  else ({ st1 with sockPresent := false }, [], true)

/-- Write results shared by the per-platform write models. -/
inductive WErr where
  | notConnected
  | busy
  | writeFailed
deriving DecidableEq, Repr

/-- Outcome of a plain write call. -/
inductive WResult where
  | ok (n : Nat)
  | err (e : WErr)
deriving DecidableEq, Repr

/-- Electron write(): not connected without an open socket, busy while an RR
cycle is in flight, otherwise the write callback decides (cbOk). -/
def electronWrite (st : ElState) (data : List Nat) (cbOk : Bool) : WResult :=
  if !elIsOpen st then WResult.err WErr.notConnected
  else if st.rrInFlight then WResult.err WErr.busy
  else if cbOk then WResult.ok data.length
  else WResult.err WErr.writeFailed

/-- Swift write(): guard fd >= 0 else notConnected; busy while rrInFlight;
otherwise sendAll decides. -/
def swiftWrite (fdValid rrInFlight : Bool) (bytes : List Nat)
    (sendOk : Bool) : WResult :=
  if !fdValid then WResult.err WErr.notConnected
  else if rrInFlight then WResult.err WErr.busy
  else if sendOk then WResult.ok bytes.length
  else WResult.err WErr.writeFailed

/-- Outcome of the one-byte health probe of the current Kotlin core
(mark(1); read(); reset() under a 5 ms soTimeout): EOF, a buffered byte
(restored by reset), a SocketTimeoutException, or an I/O error. -/
inductive KProbe where
  | eofByte
  | dataByte
  | noData
  | ioError
deriving DecidableEq, Repr

/-- isConnected() of the current Kotlin core: false without a live socket;
true straight from the flags while the reader or an RR is active (the input
stream is not touched, so the result ignores the probe); otherwise the
non-destructive one-byte peek decides: EOF tears the session down with the
Remote reason, a peeked byte (restored via reset) or a timeout means
healthy, an I/O error tears the session down with an error reason.  The
short probe soTimeout is restored in the finally block of the source, so
the returned state keeps the original soTimeout. -/
def kotlinIsConnected707 (st : KState) (probe : KProbe) :
    Bool × KState × List KReason :=
  if !st.socketPresent then (false, st, [])
  else if !st.socketHealthy then (false, st, [])
  else if st.readerActive || st.rrInFlight then (true, st, [])
  else if !st.inputPresent then (true, st, [])
  else match probe with
    | KProbe.eofByte =>
      let r := kotlinDisconnectInternal707 KReason.remote st
      (false, r.1, r.2)
    | KProbe.dataByte => (true, st, [])
    | KProbe.noData => (true, st, [])
    | KProbe.ioError =>
      let r := kotlinDisconnectInternal707 KReason.errorR st
      (false, r.1, r.2)

/-- isConnected() of the Kotlin variant core: a pure flag check
(socket != null && isConnected && !isClosed && inetAddress != null) that
never touches the input stream and never emits an event. -/
def kotlinIsConnectedVariant (st : KState) : Bool :=
  st.socketPresent && st.socketHealthy

/-- write() of the current Kotlin core: fails NotConnected without an output
stream or when isConnected() denies, then writes under the write mutex with
no check of the RR in-flight flag (teardown side effects of a failing write
are not needed by the claims and are elided). -/
def kotlinWrite707 (st : KState) (probe : KProbe) (bytes : List Nat)
    (writeOk : Bool) : WResult :=
  if !st.inputPresent then WResult.err WErr.notConnected
  else if !(kotlinIsConnected707 st probe).1 then WResult.err WErr.notConnected
  else if writeOk then WResult.ok bytes.length
  else WResult.err WErr.writeFailed

/-- JavaScript toLowerCase restricted to the ASCII range the parsers see. -/
def jsToLower (c : Char) : Char :=
  if 'A' ≤ c ∧ c ≤ 'Z' then Char.ofNat (c.toNat + 32) else c

/-- The ASCII whitespace matched by the JavaScript regular expression
backslash-s class (space, tab, line feed, vertical tab, form feed,
carriage return). -/
def isJsWS (c : Char) : Bool :=
  c = ' ' || c = '\t' || c = '\n' || c = '\r'
    || c = Char.ofNat 11 || c = Char.ofNat 12

/-- Global, case-insensitive removal of the two-character sequence 0x,
scanning left to right and resuming after each removed match, exactly like
String.replace with a global case-insensitive regular expression. -/
def remove0x : List Char → List Char
  | [] => []
  | [c] => [c]
  | a :: b :: rest =>
    if a = '0' ∧ (b = 'x' ∨ b = 'X') then remove0x rest
    else a :: remove0x (b :: rest)

/-- Hex digit value accepting both cases (as parseInt with radix 16 does). -/
def hexValAny (c : Char) : Option Nat :=
  if '0' ≤ c ∧ c ≤ '9' then some (c.toNat - 48)
  else if 'a' ≤ c ∧ c ≤ 'f' then some (c.toNat - 87)
  else if 'A' ≤ c ∧ c ≤ 'F' then some (c.toNat - 55)
  else none

/-- JavaScript parseInt(s, 16) on a two-character string: an optional sign
followed by one hex digit, the prefix 0x with no digits (NaN), or one or two
leading hex digits (parseInt keeps the longest valid prefix and only yields
NaN when no digit was consumed). -/
def jsParseIntHex2 (a b : Char) : Option Int :=
  if a = '+' then (hexValAny b).map fun v => (v : Int)
  else if a = '-' then (hexValAny b).map fun v => -(v : Int)
  else if a = '0' ∧ (b = 'x' ∨ b = 'X') then none
  else match hexValAny a, hexValAny b with
    | some x, some y => some ((16 * x + y : Nat) : Int)
    | some x, none => some ((x : Nat) : Int)
    | none, _ => none

/-- Kotlin String.toIntOrNull(16) on a two-character string: an optional
sign followed by one hex digit, or two hex digits; anything else is null
(the whole string must parse, and no 0x prefix is recognized). -/
def kotlinHexPair (a b : Char) : Option Int :=
  if a = '+' then (hexValAny b).map fun v => (v : Int)
  else if a = '-' then (hexValAny b).map fun v => -(v : Int)
  else match hexValAny a, hexValAny b with
    | some x, some y => some ((16 * x + y : Nat) : Int)
    | _, _ => none

/-- The cleaning pipeline of the TypeScript parseExpectBytes string branch:
replace(/0x/gi, empty), then strip all whitespace, then toLowerCase. -/
def cleanHexTS (s : List Char) : List Char :=
  ((remove0x s).filter fun c => !isJsWS c).map jsToLower

/-- Decode consecutive cleaned character pairs through parseInt(-, 16),
masking each value with the bitwise and 0xff of JavaScript (two's-complement
wrap, i.e. the nonnegative remainder modulo 256). -/
def decodePairsJS : List Char → Option (List Nat)
  | [] => some []
  | [_] => none
  | a :: b :: rest =>
    match jsParseIntHex2 a b with
    | none => none
    | some v => (decodePairsJS rest).map fun l => (v % 256).toNat :: l

/-- The string branch of the TypeScript parseExpectBytes: clean, reject an
empty or odd-length remainder, then decode the pairs (null as soon as one
pair parses to NaN). -/
def parseExpectHexTS (s : List Char) : Option (List Nat) :=
  let clean := cleanHexTS s
  if clean.length = 0 ∨ clean.length % 2 = 1 then none
  else decodePairsJS clean

/-- The cleaning of the Android Helpers.hexToBytes:
str.replace(" ", "").lowercase() removes space characters only (no other
whitespace and no 0x handling) and lowercases. -/
def cleanHexKotlin (s : List Char) : List Char :=
  (s.filter fun c => c ≠ ' ').map jsToLower

/-- Decode cleaned pairs through Kotlin toIntOrNull(16), masking with
and 0xFF as the source does before the Byte conversion. -/
def decodePairsKotlin : List Char → Option (List Nat)
  | [] => some []
  | [_] => none
  | a :: b :: rest =>
    match kotlinHexPair a b with
    | none => none
    | some v => (decodePairsKotlin rest).map fun l => (v % 256).toNat :: l

/-- Android Helpers.hexToBytes: clean (spaces only), reject an empty or
odd-length remainder, decode via toIntOrNull(16) with null propagation. -/
def kotlinHexToBytes (s : List Char) : Option (List Nat) :=
  let clean := cleanHexKotlin s
  if clean.length = 0 ∨ clean.length % 2 = 1 then none
  else decodePairsKotlin clean

/-- Character of a single hex digit value, in the requested case. -/
def hexDigitChar (n : Nat) (upper : Bool) : Char :=
  if n < 10 then Char.ofNat (48 + n)
  else Char.ofNat ((if upper then 55 else 87) + n)

/-- Formatting choices for rendering one byte of a hex expect string: an
optional 0x or 0X prefix, upper or lower case for each digit, and an
optional trailing space. -/
structure HexFmt where
  pre : Bool
  preUpper : Bool
  hiUpper : Bool
  loUpper : Bool
  wsAfter : Bool
deriving DecidableEq, Repr

/-- Render one byte under the given formatting choices. -/
def renderHexByte (f : HexFmt) (b : Nat) : List Char :=
  (if f.pre then ['0', if f.preUpper then 'X' else 'x'] else [])
    ++ [hexDigitChar (b / 16) f.hiUpper, hexDigitChar (b % 16) f.loUpper]
    ++ (if f.wsAfter then [' '] else [])

/-- Render a whole formatted hex string from per-byte formatting choices. -/
def renderHexInput (l : List (HexFmt × Nat)) : List Char :=
  (l.map fun p => renderHexByte p.1 p.2).flatten

lemma floor_max_intCast (lo : ℤ) (q : ℚ) : ⌊max (lo : ℚ) q⌋ = max lo ⌊q⌋ := by
  rcases le_total q (lo : ℚ) with h | h
  · rw [max_eq_left h, Int.floor_intCast]
    have : ⌊q⌋ ≤ lo := by
      have := Int.floor_le_floor h
      simpa using this
    omega
  · rw [max_eq_right h]
    have : lo ≤ ⌊q⌋ := Int.le_floor.mpr (by exact_mod_cast h)
    omega

lemma floor_min_intCast (hi : ℤ) (q : ℚ) : ⌊min (hi : ℚ) q⌋ = min hi ⌊q⌋ := by
  rcases le_total q (hi : ℚ) with h | h
  · rw [min_eq_right h]
    have : ⌊q⌋ ≤ hi := by
      have := Int.floor_le_floor h
      simpa using this
    omega
  · rw [min_eq_left h, Int.floor_intCast]
    have : hi ≤ ⌊q⌋ := Int.le_floor.mpr (by exact_mod_cast h)
    omega

lemma medianQ_eq_medianTwice (l : List Nat) :
    medianQ l = (medianTwice l : ℚ) / 2 := by
  unfold medianQ medianTwice
  by_cases h : l.length % 2 = 1 <;> simp [h]

lemma floor_clamp_50_200 (q : ℚ) :
    ⌊min (200 : ℚ) (max (50 : ℚ) q)⌋ = min 200 (max 50 ⌊q⌋) := by
  rw [show (200 : ℚ) = ((200 : ℤ) : ℚ) by norm_num,
      show (50 : ℚ) = ((50 : ℤ) : ℚ) by norm_num,
      floor_min_intCast, floor_max_intCast]

/-- C4: For every state of the RR inter-arrival sample ring, the adaptive
idle threshold equals the median of the last at most 5 inter-arrival gaps
multiplied by 1.75 (the integral part, as the sources truncate with toInt /
Int(...)) and clamped into [50 ms, 200 ms], and equals 50 ms when no samples
exist; the sample ring updates keep exactly the last at most 5 gaps, and
the Kotlin and Swift ring updates agree. -/
theorem c4_adaptive_idle_threshold (l : List Nat) (d : Nat)
    (h5 : l.length ≤ 5) :
    ((idleThresholdMs l : ℤ) = ⌊specIdleThresholdQ l⌋)
    ∧ idleThresholdMs [] = 50
    ∧ 50 ≤ idleThresholdMs l ∧ idleThresholdMs l ≤ 200
    ∧ kotlinPushSample l d = (l ++ [d]).drop ((l ++ [d]).length - 5)
    ∧ (kotlinPushSample l d).length ≤ 5
    ∧ swiftPushSample l d = kotlinPushSample l d := by
  have hk : kotlinPushSample l d = (l ++ [d]).drop ((l ++ [d]).length - 5) := by
    show (if 5 < (l ++ [d]).length then (l ++ [d]).drop 1 else l ++ [d]) = _
    by_cases h : 5 < (l ++ [d]).length
    · have h1 : (l ++ [d]).length - 5 = 1 := by
        simp only [List.length_append, List.length_singleton] at h ⊢
        omega
      rw [if_pos h, h1]
    · have h0 : (l ++ [d]).length - 5 = 0 := by
        simp only [List.length_append, List.length_singleton] at h ⊢
        omega
      rw [if_neg h, h0, List.drop_zero]
  have hs : swiftPushSample l d = (l ++ [d]).drop ((l ++ [d]).length - 5) := by
    show (if 5 < (l ++ [d]).length then (l ++ [d]).drop ((l ++ [d]).length - 5)
          else l ++ [d]) = _
    by_cases h : 5 < (l ++ [d]).length
    · rw [if_pos h]
    · have h0 : (l ++ [d]).length - 5 = 0 := by
        simp only [List.length_append, List.length_singleton] at h ⊢
        omega
      rw [if_neg h, h0, List.drop_zero]
  refine ⟨?_, by simp [idleThresholdMs], ?_, ?_, hk, ?_, hs.trans hk.symm⟩
  · unfold idleThresholdMs specIdleThresholdQ
    by_cases hl : l.isEmpty
    · simp [hl]
    · rw [if_neg hl, if_neg hl, medianQ_eq_medianTwice]
      have hq : (medianTwice l : ℚ) / 2 * (7 / 4) =
          ((7 * medianTwice l : ℕ) : ℚ) / ((8 : ℕ) : ℚ) := by
        push_cast
        ring
      rw [hq, floor_clamp_50_200, Rat.floor_natCast_div_natCast]
      push_cast [Int.ofNat_ediv]
      omega
  · unfold idleThresholdMs
    by_cases hl : l.isEmpty <;> simp [hl]
  · unfold idleThresholdMs
    by_cases hl : l.isEmpty <;> simp [hl]
  · rw [hk, List.length_drop]
    simp only [List.length_append, List.length_singleton]
    omega

/-- Witness for C4 at the concrete ring [35] with a new gap 7. -/
theorem c4_adaptive_idle_threshold_witness :
    ([35] : List Nat).length ≤ 5
    ∧ (((idleThresholdMs [35] : ℤ) = ⌊specIdleThresholdQ [35]⌋)
      ∧ idleThresholdMs [] = 50
      ∧ 50 ≤ idleThresholdMs [35] ∧ idleThresholdMs [35] ≤ 200
      ∧ kotlinPushSample [35] 7 = (([35] : List Nat) ++ [7]).drop
          ((([35] : List Nat) ++ [7]).length - 5)
      ∧ (kotlinPushSample [35] 7).length ≤ 5
      ∧ swiftPushSample [35] 7 = kotlinPushSample [35] 7) :=
  ⟨by decide, c4_adaptive_idle_threshold [35] 7 (by decide)⟩

lemma kotlinRRLoop_ok_length (e : Option (List Nat → Bool))
    (cap dl : Nat) :
    ∀ (evs : List KEv) (st : KState) (buf inter : List Nat) (last : Nat),
      buf.length ≤ cap →
      ∀ (d : List Nat) (m : Bool) (st' : KState),
        kotlinRRLoop e cap dl evs st buf inter last
          = some (KResult.ok d m, st') →
        d.length ≤ cap := by
  intro evs
  induction evs with
  | nil =>
    intro st buf inter last hlen d m st' hEq
    by_cases hcap : cap ≤ buf.length
    · simp only [kotlinRRLoop, if_pos hcap, Option.some.injEq, Prod.mk.injEq,
        KResult.ok.injEq] at hEq
      obtain ⟨⟨rfl, _⟩, _⟩ := hEq
      exact hlen
    · simp only [kotlinRRLoop, if_neg hcap] at hEq
      cases hEq
  | cons ev rest ih =>
    intro st buf inter last hlen d m st' hEq
    by_cases hcap : cap ≤ buf.length
    · simp only [kotlinRRLoop, if_pos hcap, Option.some.injEq, Prod.mk.injEq,
        KResult.ok.injEq] at hEq
      obtain ⟨⟨rfl, _⟩, _⟩ := hEq
      exact hlen
    · by_cases hdl : dl ≤ ev.nowHead
      · simp only [kotlinRRLoop, if_neg hcap, if_pos hdl] at hEq
        by_cases hpos : 0 < buf.length
        · simp only [if_pos hpos, Option.some.injEq, Prod.mk.injEq,
            KResult.ok.injEq] at hEq
          obtain ⟨⟨rfl, _⟩, _⟩ := hEq
          exact hlen
        · simp only [if_neg hpos, Option.some.injEq, Prod.mk.injEq] at hEq
          exact absurd hEq.1 (by simp)
      · rcases hout : ev.outcome with ⟨now2, chunk⟩ | _ | _
        · by_cases hz : chunk.length = 0
          · simp only [kotlinRRLoop, if_neg hcap, if_neg hdl, hout,
              if_pos hz] at hEq
            exact ih _ _ _ _ hlen d m st' hEq
          · have hlen' : (buf ++ chunk.take (cap - buf.length)).length ≤ cap := by
              simp only [List.length_append, List.length_take]
              omega
            simp only [kotlinRRLoop, if_neg hcap, if_neg hdl, hout,
              if_neg hz] at hEq
            cases e with
            | some p =>
              by_cases hp : p (buf ++ chunk.take (cap - buf.length))
              · simp only [hp, if_true, Option.some.injEq, Prod.mk.injEq,
                  KResult.ok.injEq] at hEq
                obtain ⟨⟨rfl, _⟩, _⟩ := hEq
                exact hlen'
              · simp only [hp, if_false] at hEq
                by_cases hc : cap ≤ (buf ++ chunk.take (cap - buf.length)).length
                · simp only [if_pos hc, Option.some.injEq, Prod.mk.injEq,
                    KResult.ok.injEq] at hEq
                  obtain ⟨⟨rfl, _⟩, _⟩ := hEq
                  exact hlen'
                · simp only [if_neg hc] at hEq
                  exact ih _ _ _ _ hlen' d m st' hEq
            | none =>
              by_cases hc : cap ≤ (buf ++ chunk.take (cap - buf.length)).length
              · simp only [if_pos hc, Option.some.injEq, Prod.mk.injEq,
                  KResult.ok.injEq] at hEq
                obtain ⟨⟨rfl, _⟩, _⟩ := hEq
                exact hlen'
              · simp only [if_neg hc] at hEq
                exact ih _ _ _ _ hlen' d m st' hEq
        · simp only [kotlinRRLoop, if_neg hcap, if_neg hdl, hout,
            Option.some.injEq, Prod.mk.injEq] at hEq
          exact absurd hEq.1 (by simp)
        · by_cases hcond : (e.isNone && decide (0 < buf.length)) = true
          · simp only [kotlinRRLoop, if_neg hcap, if_neg hdl, hout,
              hcond, if_true, Option.some.injEq, Prod.mk.injEq,
              KResult.ok.injEq] at hEq
            obtain ⟨⟨rfl, _⟩, _⟩ := hEq
            exact hlen
          · simp only [kotlinRRLoop, if_neg hcap, if_neg hdl, hout,
              hcond, if_false] at hEq
            exact ih _ _ _ _ hlen d m st' hEq

lemma electronRRLoop_success_len (pat : Option (List Nat)) (cap reqLen : Nat) :
    ∀ (evs : List ElEv) (chunks : List Nat) (r : ElRRResult),
      electronRRLoop pat cap reqLen chunks evs = some r → r.error = false →
      r.data.length ≤ cap ∧ r.bytesRead = some r.data.length := by
  intro evs
  induction evs with
  | nil =>
    intro chunks r hEq _
    simp only [electronRRLoop] at hEq
    cases hEq
  | cons ev rest ih =>
    intro chunks r hEq herr
    cases ev with
    | data c =>
      cases pat with
      | some patv =>
        by_cases hfin : (bufHasPattern patv (chunks ++ c)
            || decide (cap ≤ (chunks ++ c).length)) = true
        · simp only [electronRRLoop, hfin, if_true, Option.some.injEq] at hEq
          subst hEq
          refine ⟨?_, rfl⟩
          simp only [elFinishOk, List.length_take]
          omega
        · simp only [electronRRLoop, hfin, if_false] at hEq
          exact ih _ _ hEq herr
      | none =>
        simp only [electronRRLoop, Option.some.injEq] at hEq
        subst hEq
        refine ⟨?_, rfl⟩
        simp only [elFinishOk, List.length_take]
        omega
    | timer =>
      simp only [electronRRLoop, Option.some.injEq] at hEq
      subst hEq
      simp [elFinishErr] at herr
    | errorEv =>
      simp only [electronRRLoop, Option.some.injEq] at hEq
      subst hEq
      simp [elFinishErr] at herr
    | closeEv =>
      simp only [electronRRLoop, Option.some.injEq] at hEq
      subst hEq
      simp [elFinishErr] at herr

/-- C2: The length of the data returned by writeAndRead never exceeds the
configured maxBytes cap (shown for every run of the Kotlin writeAndRead and
for every successful Electron writeAndRead result, whose bytesRead also
equals the returned length), and when the cap is reached by an arriving
chunk before the expect pattern has matched the truncated buffer, the
Kotlin receive loop terminates successfully with data of length exactly the
cap and matched false, even if the pattern would have matched in the bytes
that were cut off or would have arrived later. -/
theorem c2_rr_response_cap :
    (∀ (expect : Option (List Nat → Bool)) (maxBytes : Int) (rt : Nat)
       (s w c : Bool) (dl : Nat) (events : List KEv) (st0 stF : KState)
       (d : List Nat) (m : Bool),
       kotlinWriteAndRead707 expect maxBytes rt s w c dl events st0
         = some (KResult.ok d m, stF) →
       d.length ≤ (if 0 < maxBytes then maxBytes else 4096).toNat)
    ∧ (∀ (p : List Nat → Bool) (cap dl : Nat) (ev : KEv) (rest : List KEv)
         (st : KState) (buf inter : List Nat) (last now2 : Nat)
         (chunk : List Nat),
         buf.length < cap → ¬ dl ≤ ev.nowHead →
         ev.outcome = KOut.data now2 chunk →
         chunk.length ≠ 0 → cap ≤ buf.length + chunk.length →
         p (buf ++ chunk.take (cap - buf.length)) = false →
         (∃ stx, kotlinRRLoop (some p) cap dl (ev :: rest) st buf inter last
             = some (KResult.ok (buf ++ chunk.take (cap - buf.length)) false,
                     stx))
           ∧ (buf ++ chunk.take (cap - buf.length)).length = cap)
    ∧ (∀ (pat : Option (List Nat)) (cap reqLen : Nat) (chunks : List Nat)
         (evs : List ElEv) (r : ElRRResult),
         electronRRLoop pat cap reqLen chunks evs = some r →
         r.error = false →
         r.data.length ≤ cap ∧ r.bytesRead = some r.data.length) := by
  refine ⟨?_, ?_, fun pat cap reqLen chunks evs r =>
    electronRRLoop_success_len pat cap reqLen evs chunks r⟩
  · intro expect maxBytes rt s w c dl events st0 stF d m hEq
    unfold kotlinWriteAndRead707 at hEq
    by_cases hw : (!w) = true
    · rw [if_pos hw] at hEq
      simp only [Option.some.injEq, Prod.mk.injEq] at hEq
      exact absurd hEq.1 (by simp)
    · rw [if_neg hw] at hEq
      cases hL : kotlinRRLoop expect
          ((if 0 < maxBytes then maxBytes else 4096).toNat) dl events
          (if s && st0.readerActive then
            { st0 with rrInFlight := true, readerActive := false }
          else { st0 with rrInFlight := true }) [] [] 0 with
      | none =>
        rw [hL] at hEq
        cases hEq
      | some pr =>
        rw [hL] at hEq
        obtain ⟨r, st3⟩ := pr
        simp only [Option.some.injEq, Prod.mk.injEq] at hEq
        have hr : r = KResult.ok d m := hEq.1
        subst hr
        exact kotlinRRLoop_ok_length expect _ dl events _ [] [] 0
          (by simp) d m st3 hL
  · intro p cap dl ev rest st buf inter last now2 chunk hlt hdl hout hz hcap hp
    have hlen : (buf ++ chunk.take (cap - buf.length)).length = cap := by
      simp only [List.length_append, List.length_take]
      omega
    refine ⟨⟨kotlinSetSoTimeout st
        (max 1 (min 200 (dl - ev.nowHead))), ?_⟩, hlen⟩
    have hstep : (Option.isNone (some p) && decide (0 < buf.length)) = false := by
      simp
    simp only [kotlinRRLoop, if_neg (not_le.mpr hlt), if_neg hdl, hout,
      if_neg hz, hstep, hp, Bool.false_eq_true, if_false, if_pos hlen.ge]

/-- Witness for C2: cap 4, pattern FF FF, single chunk 00 00 00 00 FF FF;
the loop stops at the cap with 4 bytes and matched false although the
pattern sits in the cut-off tail (specification scenario 6). -/
theorem c2_rr_response_cap_witness :
    (∃ stx, kotlinRRLoop (some fun l => bufHasPattern [255, 255] l) 4 100
        [⟨0, KOut.data 5 [0, 0, 0, 0, 255, 255]⟩]
        ⟨true, true, true, false, true, 1000⟩ [] [] 0
        = some (KResult.ok (([] : List Nat)
            ++ ([0, 0, 0, 0, 255, 255] : List Nat).take (4 - ([] : List Nat).length))
            false, stx))
      ∧ (([] : List Nat)
          ++ ([0, 0, 0, 0, 255, 255] : List Nat).take
            (4 - ([] : List Nat).length)).length = 4 :=
  c2_rr_response_cap.2.1 (fun l => bufHasPattern [255, 255] l) 4 100
    ⟨0, KOut.data 5 [0, 0, 0, 0, 255, 255]⟩ []
    ⟨true, true, true, false, true, 1000⟩ [] [] 0 5 [0, 0, 0, 0, 255, 255]
    (by decide) (by decide) rfl (by decide) (by decide) (by decide)

/-- C1: The claimed deadline policy (partial data resolves successfully with
matched false; an empty timeout fails while still reporting the full request
length written and zero bytes read) holds on the Kotlin engine and its
bridge mapping, but the Electron writeAndRead violates it: when the timer
fires with a byte already collected under an expect pattern, it discards the
byte and fails, and its timeout failure reports bytesRead as null rather
than 0.  The first two conjuncts evaluate the Electron code at the failing
inputs, the rest evaluate the Kotlin engine at the corresponding inputs. -/
theorem c1_deadline_policy :
    electronRRLoop (some [2]) 4096 3 [] [ElEv.data [1], ElEv.timer]
      = some { error := true, errorMessage := some "connect timeout",
               data := [], bytesWritten := some 3, bytesRead := none }
    ∧ electronRRLoop (some [2]) 4096 3 [] [ElEv.timer]
      = some { error := true, errorMessage := some "connect timeout",
               data := [], bytesWritten := some 3, bytesRead := none }
    ∧ kotlinRRLoop (some fun l => bufHasPattern [2] l) 4096 100
        [⟨0, KOut.data 5 [1]⟩, ⟨100, KOut.stimeout⟩]
        ⟨true, true, true, false, true, 1000⟩ [] [] 0
      = some (KResult.ok [1] false,
              ⟨true, true, true, false, true, 100⟩)
    ∧ kotlinRRLoop (some fun l => bufHasPattern [2] l) 4096 100
        [⟨100, KOut.stimeout⟩] ⟨true, true, true, false, true, 1000⟩ [] [] 0
      = some (KResult.err KErr.connectTimeout,
              ⟨true, true, true, false, true, 1000⟩)
    ∧ bridgeMapRR [9, 9, 9] (KResult.err KErr.connectTimeout)
      = { error := true, bytesSent := 3, bytesReceived := 0,
          data := [], matched := false } :=
  ⟨rfl, rfl, rfl, rfl, rfl⟩

/-- C3: Without an expect pattern the Kotlin and Swift engines keep
collecting after the first chunk and only resolve once the idle period
since the last arrival reaches the adaptive threshold (the Swift trace
continues past a 30 ms idle tick, below the 50 ms default threshold, and
resolves on a 65 ms idle tick above its 52 ms adaptive threshold; the
Kotlin trace collects both chunks and resolves on the idle socket timeout),
but the Electron writeAndRead resolves with the very first chunk, dropping
the later bytes: the failing-input evaluation is the first conjunct. -/
theorem c3_until_idle_collection :
    electronRRLoop none 4096 1 [] [ElEv.data [160, 161], ElEv.data [162]]
      = some { error := false, errorMessage := none, data := [160, 161],
               bytesWritten := some 1, bytesRead := some 2 }
    ∧ swiftRRLoop none 4096
        [SEv.data 0 [160, 161], SEv.tick 30, SEv.data 35 [162], SEv.tick 100]
        [] 1000 none []
      = some (SResult.ok [160, 161, 162] false)
    ∧ swiftRRLoop none 4096 [SEv.data 0 [160, 161], SEv.tick 30] [] 1000 none []
      = none
    ∧ kotlinRRLoop none 4096 1000
        [⟨0, KOut.data 5 [160, 161]⟩, ⟨20, KOut.data 35 [162]⟩,
         ⟨80, KOut.stimeout⟩]
        ⟨true, true, true, false, true, 1000⟩ [] [] 0
      = some (KResult.ok [160, 161, 162] false,
              ⟨true, true, true, false, true, 52⟩) :=
  ⟨rfl, rfl, rfl, rfl⟩

lemma sliceGo_spec : ∀ (fuel lim : Nat) (c : List Nat), 1 ≤ lim →
    c.length ≤ fuel →
    (sliceGo fuel lim c).flatten = c
    ∧ ∀ p ∈ sliceGo fuel lim c, p.length ≤ lim ∧ p ≠ [] := by
  intro fuel
  induction fuel with
  | zero =>
    intro lim c hlim hc
    have hcnil : c = [] := List.length_eq_zero.mp (Nat.le_zero.mp hc)
    subst hcnil
    simp [sliceGo]
  | succ fuel ih =>
    intro lim c hlim hc
    cases c with
    | nil => simp [sliceGo]
    | cons x xs =>
      have hdrop : ((x :: xs).drop lim).length ≤ fuel := by
        simp only [List.length_drop, List.length_cons]
        simp only [List.length_cons] at hc
        omega
      obtain ⟨ihf, ihm⟩ := ih lim ((x :: xs).drop lim) hlim hdrop
      constructor
      · simp only [sliceGo, List.flatten_cons, ihf, List.take_append_drop]
      · intro p hp
        simp only [sliceGo, List.mem_cons] at hp
        rcases hp with rfl | hp
        · refine ⟨by simp [List.length_take], ?_⟩
          cases lim with
          | zero => omega
          | succ l => simp
        · exact ihm p hp

/-- C5 counterexample: with chunk size 2 configured, the Android bridge
flush emits the whole 3-byte pending batch as one single tcpData event of
3 bytes, so a flush does not slice into parts of at most the chunk size. -/
theorem c5_counterexample_flush_no_slicing :
    flushPendingNow [1, 2, 3] = [[1, 2, 3]]
    ∧ ¬ (([1, 2, 3] : List Nat).length ≤ 2) :=
  ⟨rfl, by decide⟩

/-- C5 amended: the Electron stream data handler slices every received
buffer into contiguous non-empty parts of at most the stored chunk size
(max 1 chunkSize, default 4096), emitted in order and concatenating back to
the original buffer; the Android bridge flush instead emits the entire
accumulated batch as one single Data event with no slicing by chunk size. -/
theorem c5_event_slicing (a : Option Nat) (chunk pending : List Nat) :
    (electronSliceChunk (electronLastChunkSize a) chunk).flatten = chunk
    ∧ (∀ p ∈ electronSliceChunk (electronLastChunkSize a) chunk,
        p.length ≤ electronLastChunkSize a ∧ p ≠ [])
    ∧ flushPendingNow pending = if pending.isEmpty then [] else [pending] := by
  have h := sliceGo_spec chunk.length (electronLastChunkSize a) chunk
    (le_max_left 1 _) le_rfl
  refine ⟨h.1, h.2, ?_⟩
  unfold flushPendingNow
  cases pending with
  | nil => simp
  | cons x xs => simp

/-- Witness for C5 at chunk size 2, buffer of five bytes and a pending
batch of three bytes. -/
theorem c5_event_slicing_witness :
    (electronSliceChunk (electronLastChunkSize (some 2)) [1, 2, 3, 4, 5]).flatten
        = [1, 2, 3, 4, 5]
    ∧ (∀ p ∈ electronSliceChunk (electronLastChunkSize (some 2)) [1, 2, 3, 4, 5],
        p.length ≤ electronLastChunkSize (some 2) ∧ p ≠ [])
    ∧ flushPendingNow [9, 9, 9]
        = if ([9, 9, 9] : List Nat).isEmpty then [] else [[9, 9, 9]] :=
  c5_event_slicing (some 2) [1, 2, 3, 4, 5] [9, 9, 9]

/-- C6 counterexample: the current Kotlin core emits a Manual disconnect
event even when no session exists (socket, streams and reader all absent),
and the sequence disconnect; disconnect from an open session emits two
Manual events, not at most one. -/
theorem c6_counterexample_disconnect_always_emits :
    (kotlinDisconnect707 ⟨false, false, false, false, false, 0⟩).2
      = [KReason.manual]
    ∧ (kotlinDisconnect707 ⟨true, true, true, false, false, 0⟩).2
        ++ (kotlinDisconnect707
            (kotlinDisconnect707 ⟨true, true, true, false, false, 0⟩).1).2
      = [KReason.manual, KReason.manual] :=
  ⟨rfl, rfl⟩

/-- C6 amended: the Electron disconnect is idempotent and emits the Manual
event iff a socket existed: it always resolves successfully with
disconnected true, leaves no socket behind, and a second disconnect emits
no event; the current Kotlin core disconnect always returns to a cleared
state but emits a Manual event unconditionally on every call, even without
a session. -/
theorem c6_disconnect_idempotent (st : ElState) (kst : KState) :
    (electronDisconnect st).2.2 = true
    ∧ (electronDisconnect st).2.1
        = (if st.sockPresent then [ElReason.manual] else [])
    ∧ ((electronDisconnect st).1).sockPresent = false
    ∧ (electronDisconnect (electronDisconnect st).1).2.1 = []
    ∧ (electronDisconnect (electronDisconnect st).1).2.2 = true
    ∧ (kotlinDisconnect707 kst).2 = [KReason.manual] := by
  unfold electronDisconnect electronStopRead kotlinDisconnect707
  by_cases h : st.sockPresent <;> simp [h]

/-- C7 counterexample: on the current Kotlin core a plain write issued while
an RR cycle is in flight (open healthy session, rrInFlight set) does not
fail with Busy: it proceeds and reports the full length as written. -/
theorem c7_counterexample_write_ignores_rr :
    kotlinWrite707 ⟨true, true, true, false, true, 1000⟩ KProbe.noData
      [1, 2, 3] true = WResult.ok 3 :=
  rfl

/-- C7 amended: the Electron and Swift writes fail Busy while an RR is in
flight and NotConnected without an open session, but the current Kotlin
core write performs no RR-in-flight check: it can never return Busy, and
with an open healthy session it transmits even while rrInFlight is set
(serialized with the RR write phase only by the write mutex). -/
theorem c7_write_busy_gate (st : ElState) (kst : KState) (probe : KProbe)
    (bytes : List Nat) (cbOk rr : Bool) :
    (elIsOpen st = true → st.rrInFlight = true →
      electronWrite st bytes cbOk = WResult.err WErr.busy)
    ∧ (elIsOpen st = false →
      electronWrite st bytes cbOk = WResult.err WErr.notConnected)
    ∧ swiftWrite true true bytes cbOk = WResult.err WErr.busy
    ∧ swiftWrite false rr bytes cbOk = WResult.err WErr.notConnected
    ∧ kotlinWrite707 kst probe bytes cbOk ≠ WResult.err WErr.busy
    ∧ (kst.inputPresent = true → kst.socketPresent = true →
       kst.socketHealthy = true → kst.rrInFlight = true →
       kotlinWrite707 kst probe bytes true = WResult.ok bytes.length) := by
  refine ⟨?_, ?_, rfl, rfl, ?_, ?_⟩
  · intro hopen hrr
    unfold electronWrite
    simp [hopen, hrr]
  · intro hclosed
    unfold electronWrite
    simp [hclosed]
  · unfold kotlinWrite707
    by_cases h1 : (!kst.inputPresent) = true
    · simp [h1]
    · by_cases h2 : (!(kotlinIsConnected707 kst probe).1) = true
      · simp [h1, h2]
      · by_cases h3 : cbOk <;> simp [h1, h2, h3]
  · intro hin hsock hhealthy hrr
    unfold kotlinWrite707 kotlinIsConnected707
    simp [hin, hsock, hhealthy, hrr]

/-- Witness for C7: Busy on an open Electron socket with RR in flight,
NotConnected on a closed one, Busy on Swift, and a successful Kotlin write
despite rrInFlight being set. -/
theorem c7_write_busy_gate_witness :
    electronWrite ⟨true, false, false, false, true, false, false⟩ [7] true
      = WResult.err WErr.busy
    ∧ electronWrite ⟨false, false, false, false, false, false, false⟩ [7] true
      = WResult.err WErr.notConnected
    ∧ swiftWrite true true [7] true = WResult.err WErr.busy
    ∧ kotlinWrite707 ⟨true, true, true, false, true, 1000⟩ KProbe.noData [7]
        true = WResult.ok ([7] : List Nat).length :=
  ⟨(c7_write_busy_gate ⟨true, false, false, false, true, false, false⟩
      ⟨true, true, true, false, true, 1000⟩ KProbe.noData [7] true false).1
      (by decide) (by decide),
   (c7_write_busy_gate ⟨false, false, false, false, false, false, false⟩
      ⟨true, true, true, false, true, 1000⟩ KProbe.noData [7] true false).2.1
      (by decide),
   (c7_write_busy_gate ⟨true, false, false, false, true, false, false⟩
      ⟨true, true, true, false, true, 1000⟩ KProbe.noData [7] true false).2.2.1,
   (c7_write_busy_gate ⟨true, false, false, false, true, false, false⟩
      ⟨true, true, true, false, true, 1000⟩ KProbe.noData [7] true
      false).2.2.2.2.2 (by decide) (by decide) (by decide) (by decide)⟩

/-- C9 counterexample: with the reader and RR both inactive and a peer EOF
pending (the probe would read 0 bytes), the Kotlin variant isConnected
still answers true from the flags alone and emits nothing, while the
claimed probe semantics (shown by the current core on the same state)
answers false and tears the session down with the Remote reason. -/
theorem c9_counterexample_flag_only_probe :
    kotlinIsConnectedVariant ⟨true, true, true, false, false, 0⟩ = true
    ∧ kotlinIsConnected707 ⟨true, true, true, false, false, 0⟩ KProbe.eofByte
      = (false, ⟨false, false, false, false, false, 0⟩, [KReason.remote]) :=
  ⟨rfl, rfl⟩

/-- C9 amended: on the current Kotlin core, isConnected with the reader or
an RR active answers true from the flags without touching the input stream
(the result and state are independent of the probe outcome); when neither
is active it performs the non-consuming one-byte peek: EOF closes the
session with Remote and answers false, an available byte or a timed-out
peek answers true and leaves the state (including the stream) unchanged.
The variant Kotlin core instead answers the pure flag conjunction and never
probes. -/
theorem c9_health_probe (st : KState) (p1 p2 : KProbe) :
    (st.socketPresent = true → st.socketHealthy = true →
      (st.readerActive || st.rrInFlight) = true →
      kotlinIsConnected707 st p1 = (true, st, [])
        ∧ kotlinIsConnected707 st p1 = kotlinIsConnected707 st p2)
    ∧ (st.socketPresent = true → st.socketHealthy = true →
       (st.readerActive || st.rrInFlight) = false → st.inputPresent = true →
       kotlinIsConnected707 st KProbe.eofByte
           = (false, (kotlinDisconnectInternal707 KReason.remote st).1,
              [KReason.remote])
         ∧ kotlinIsConnected707 st KProbe.dataByte = (true, st, [])
         ∧ kotlinIsConnected707 st KProbe.noData = (true, st, []))
    ∧ kotlinIsConnectedVariant st = (st.socketPresent && st.socketHealthy) := by
  refine ⟨?_, ?_, rfl⟩
  · intro hs hh hact
    unfold kotlinIsConnected707
    simp [hs, hh, hact]
  · intro hs hh hact hin
    unfold kotlinIsConnected707 kotlinDisconnectInternal707
    simp [hs, hh, hact, hin]

/-- Witness for C9: the active-flag fast path on a reading session and the
probe path on an idle session. -/
theorem c9_health_probe_witness :
    (kotlinIsConnected707 ⟨true, true, true, true, false, 5⟩ KProbe.eofByte
        = (true, ⟨true, true, true, true, false, 5⟩, [])
      ∧ kotlinIsConnected707 ⟨true, true, true, true, false, 5⟩ KProbe.eofByte
        = kotlinIsConnected707 ⟨true, true, true, true, false, 5⟩
            KProbe.dataByte)
    ∧ (kotlinIsConnected707 ⟨true, true, true, false, false, 5⟩ KProbe.eofByte
        = (false,
           (kotlinDisconnectInternal707 KReason.remote
             ⟨true, true, true, false, false, 5⟩).1, [KReason.remote])
      ∧ kotlinIsConnected707 ⟨true, true, true, false, false, 5⟩
          KProbe.dataByte = (true, ⟨true, true, true, false, false, 5⟩, [])
      ∧ kotlinIsConnected707 ⟨true, true, true, false, false, 5⟩
          KProbe.noData = (true, ⟨true, true, true, false, false, 5⟩, [])) :=
  ⟨(c9_health_probe ⟨true, true, true, true, false, 5⟩ KProbe.eofByte
      KProbe.dataByte).1 (by decide) (by decide) (by decide),
   (c9_health_probe ⟨true, true, true, false, false, 5⟩ KProbe.eofByte
      KProbe.dataByte).2.1 (by decide) (by decide) (by decide) (by decide)⟩

/-- Everything except soTimeout is untouched by the soTimeout setter. -/
lemma kotlinSetSoTimeout_frame (st : KState) (v : Nat) :
    (kotlinSetSoTimeout st v).socketPresent = st.socketPresent
    ∧ (kotlinSetSoTimeout st v).socketHealthy = st.socketHealthy
    ∧ (kotlinSetSoTimeout st v).inputPresent = st.inputPresent
    ∧ (kotlinSetSoTimeout st v).readerActive = st.readerActive
    ∧ (kotlinSetSoTimeout st v).rrInFlight = st.rrInFlight := by
  unfold kotlinSetSoTimeout
  by_cases h : st.socketPresent <;> simp [h]

/-- The Kotlin RR receive loop only ever mutates soTimeout: all other state
fields of the returned state agree with the entry state. -/
lemma kotlinRRLoop_frame (e : Option (List Nat → Bool)) (cap dl : Nat) :
    ∀ (evs : List KEv) (st : KState) (buf inter : List Nat) (last : Nat)
      (r : KResult) (st' : KState),
      kotlinRRLoop e cap dl evs st buf inter last = some (r, st') →
      st'.socketPresent = st.socketPresent
      ∧ st'.socketHealthy = st.socketHealthy
      ∧ st'.inputPresent = st.inputPresent
      ∧ st'.readerActive = st.readerActive
      ∧ st'.rrInFlight = st.rrInFlight := by
  intro evs
  induction evs with
  | nil =>
    intro st buf inter last r st' hEq
    by_cases hcap : cap ≤ buf.length
    · simp only [kotlinRRLoop, if_pos hcap, Option.some.injEq,
        Prod.mk.injEq] at hEq
      obtain ⟨_, rfl⟩ := hEq
      exact ⟨rfl, rfl, rfl, rfl, rfl⟩
    · simp only [kotlinRRLoop, if_neg hcap] at hEq
      cases hEq
  | cons ev rest ih =>
    intro st buf inter last r st' hEq
    by_cases hcap : cap ≤ buf.length
    · simp only [kotlinRRLoop, if_pos hcap, Option.some.injEq,
        Prod.mk.injEq] at hEq
      obtain ⟨_, rfl⟩ := hEq
      exact ⟨rfl, rfl, rfl, rfl, rfl⟩
    · by_cases hdl : dl ≤ ev.nowHead
      · simp only [kotlinRRLoop, if_neg hcap, if_pos hdl] at hEq
        by_cases hpos : 0 < buf.length <;>
          simp only [if_pos, if_neg, hpos, if_true, if_false,
            Option.some.injEq, Prod.mk.injEq] at hEq <;>
        · obtain ⟨_, rfl⟩ := hEq
          exact ⟨rfl, rfl, rfl, rfl, rfl⟩
      · have comb :
            ∀ (v : Nat) (st2 : KState),
              st2.socketPresent = (kotlinSetSoTimeout st v).socketPresent
              ∧ st2.socketHealthy = (kotlinSetSoTimeout st v).socketHealthy
              ∧ st2.inputPresent = (kotlinSetSoTimeout st v).inputPresent
              ∧ st2.readerActive = (kotlinSetSoTimeout st v).readerActive
              ∧ st2.rrInFlight = (kotlinSetSoTimeout st v).rrInFlight →
              st2.socketPresent = st.socketPresent
              ∧ st2.socketHealthy = st.socketHealthy
              ∧ st2.inputPresent = st.inputPresent
              ∧ st2.readerActive = st.readerActive
              ∧ st2.rrInFlight = st.rrInFlight := by
          intro v st2 h2
          obtain ⟨a, b, c, d, e2⟩ := h2
          obtain ⟨a', b', c', d', e'⟩ := kotlinSetSoTimeout_frame st v
          exact ⟨a.trans a', b.trans b', c.trans c', d.trans d', e2.trans e'⟩
        rcases hout : ev.outcome with ⟨now2, chunk⟩ | _ | _
        · by_cases hz : chunk.length = 0
          · simp only [kotlinRRLoop, if_neg hcap, if_neg hdl, hout,
              if_pos hz] at hEq
            exact comb _ _ (ih _ _ _ _ _ _ hEq)
          · simp only [kotlinRRLoop, if_neg hcap, if_neg hdl, hout,
              if_neg hz] at hEq
            cases e with
            | some p =>
              by_cases hp : p (buf ++ chunk.take (cap - buf.length))
              · simp only [hp, if_true, Option.some.injEq,
                  Prod.mk.injEq] at hEq
                obtain ⟨_, rfl⟩ := hEq
                exact kotlinSetSoTimeout_frame st _
              · simp only [hp, if_false] at hEq
                by_cases hc : cap ≤ (buf ++ chunk.take (cap - buf.length)).length
                · simp only [if_pos hc, Option.some.injEq,
                    Prod.mk.injEq] at hEq
                  obtain ⟨_, rfl⟩ := hEq
                  exact kotlinSetSoTimeout_frame st _
                · simp only [if_neg hc] at hEq
                  exact comb _ _ (ih _ _ _ _ _ _ hEq)
            | none =>
              by_cases hc : cap ≤ (buf ++ chunk.take (cap - buf.length)).length
              · simp only [if_pos hc, Option.some.injEq, Prod.mk.injEq] at hEq
                obtain ⟨_, rfl⟩ := hEq
                exact kotlinSetSoTimeout_frame st _
              · simp only [if_neg hc] at hEq
                exact comb _ _ (ih _ _ _ _ _ _ hEq)
        · simp only [kotlinRRLoop, if_neg hcap, if_neg hdl, hout,
            Option.some.injEq, Prod.mk.injEq] at hEq
          obtain ⟨_, rfl⟩ := hEq
          exact kotlinSetSoTimeout_frame st _
        · by_cases hcond : (e.isNone && decide (0 < buf.length)) = true
          · simp only [kotlinRRLoop, if_neg hcap, if_neg hdl, hout,
              hcond, if_true, Option.some.injEq, Prod.mk.injEq] at hEq
            obtain ⟨_, rfl⟩ := hEq
            exact kotlinSetSoTimeout_frame st _
          · simp only [kotlinRRLoop, if_neg hcap, if_neg hdl, hout,
              hcond, if_false] at hEq
            exact comb _ _ (ih _ _ _ _ _ _ hEq)

/-- Effect of the writeAndRead finally block: rrInFlight is always cleared,
the socket reference is untouched, and the final soTimeout of a surviving
socket is the restored previous value, or the stream read timeout when the
reader is resumed. -/
lemma kotlinFinally707_spec (prev rt : Nat) (s wr c : Bool) (st : KState) :
    (kotlinFinally707 prev rt s wr c st).rrInFlight = false
    ∧ (kotlinFinally707 prev rt s wr c st).socketPresent = st.socketPresent
    ∧ (st.socketPresent = true →
        (kotlinFinally707 prev rt s wr c st).soTimeout
          = (if s && wr && c && st.inputPresent && !st.readerActive
             then (if 0 < rt then rt else 1000) else prev)) := by
  obtain ⟨sp, sh, ip, ra, rrf, t⟩ := st
  unfold kotlinFinally707 kotlinSetSoTimeout
  cases s <;> cases wr <;> cases c <;> cases sp <;> cases ip <;> cases ra <;>
    simp

/-- C10: On every terminating run of the launched Kotlin writeAndRead body
(success, pattern match, cap, timeout, EOF or I/O error), the rrInFlight
flag ends cleared, and if the socket survived the run its soTimeout ends at
the pre-call value (when the reader was active before the call, the
pre-call soTimeout is the configured stream read timeout, which is what a
resumed reader re-applies). -/
theorem c10_rr_finally_restores (expect : Option (List Nat → Bool))
    (maxBytes : Int) (rt : Nat) (s w c : Bool) (dl : Nat)
    (events : List KEv) (st0 stF : KState) (r : KResult)
    (hrt : st0.readerActive = true →
      st0.soTimeout = (if 0 < rt then rt else 1000)) :
    kotlinWriteAndRead707 expect maxBytes rt s w c dl events st0
      = some (r, stF) →
    stF.rrInFlight = false
    ∧ (stF.socketPresent = true → stF.soTimeout = st0.soTimeout) := by
  intro hEq
  unfold kotlinWriteAndRead707 at hEq
  by_cases hw : (!w) = true
  · rw [if_pos hw] at hEq
    simp only [Option.some.injEq, Prod.mk.injEq] at hEq
    obtain ⟨_, rfl⟩ := hEq
    obtain ⟨hf1, hf2, _⟩ := kotlinFinally707_spec
      ({ st0 with rrInFlight := true } : KState).soTimeout rt s
      (s && ({ st0 with rrInFlight := true } : KState).readerActive) c
      (kotlinDisconnectInternal707 KReason.errorR
        (if s && ({ st0 with rrInFlight := true } : KState).readerActive then
          { st0 with rrInFlight := true, readerActive := false }
        else { st0 with rrInFlight := true })).1
    refine ⟨hf1, ?_⟩
    intro hsp
    rw [hf2] at hsp
    by_cases hwr : (s && st0.readerActive) = true <;>
      simp [kotlinDisconnectInternal707, hwr] at hsp
  · rw [if_neg hw] at hEq
    cases hL : kotlinRRLoop expect
        ((if 0 < maxBytes then maxBytes else 4096).toNat) dl events
        (if s && st0.readerActive then
          { st0 with rrInFlight := true, readerActive := false }
        else { st0 with rrInFlight := true }) [] [] 0 with
    | none =>
      rw [hL] at hEq
      cases hEq
    | some pr =>
      rw [hL] at hEq
      obtain ⟨r3, st3⟩ := pr
      simp only [Option.some.injEq, Prod.mk.injEq] at hEq
      obtain ⟨_, rfl⟩ := hEq
      obtain ⟨hsp3, _, hin3, hra3, _⟩ := kotlinRRLoop_frame expect _ dl
        events _ [] [] 0 r3 st3 hL
      obtain ⟨hf1, hf2, hf3⟩ := kotlinFinally707_spec
        ({ st0 with rrInFlight := true } : KState).soTimeout rt s
        (s && ({ st0 with rrInFlight := true } : KState).readerActive) c st3
      refine ⟨hf1, ?_⟩
      intro hsp
      rw [hf2] at hsp
      rw [hf3 hsp]
      split
      next hres =>
        simp only [Bool.and_eq_true] at hres
        refine (hrt ?_).symm
        tauto
      next hres => rfl

/-- Witness for C10: a suspended-reader RR run that collects one byte and
resolves on the idle timeout; the final state has rrInFlight cleared and
the original soTimeout back in place. -/
theorem c10_rr_finally_restores_witness :
    ((⟨true, true, true, true, false, 1000⟩ : KState).rrInFlight = false)
    ∧ ((⟨true, true, true, true, false, 1000⟩ : KState).socketPresent = true →
       (⟨true, true, true, true, false, 1000⟩ : KState).soTimeout
         = (⟨true, true, true, true, false, 1000⟩ : KState).soTimeout) :=
  c10_rr_finally_restores none 4096 1000 true true true 100
    [⟨0, KOut.data 10 [1]⟩, ⟨40, KOut.stimeout⟩]
    ⟨true, true, true, true, false, 1000⟩
    ⟨true, true, true, true, false, 1000⟩ (KResult.ok [1] false)
    (by decide) rfl

/-- The head of the list, if any, is not an x (so a preceding 0 cannot form
a spurious 0x pair across a boundary). -/
def headNotX : List Char → Prop
  | [] => True
  | c :: _ => c ≠ 'x' ∧ c ≠ 'X'

lemma hexDigitChar_facts (n : Nat) (up : Bool) (h : n < 16) :
    hexDigitChar n up ≠ 'x' ∧ hexDigitChar n up ≠ 'X'
    ∧ hexDigitChar n up ≠ '+' ∧ hexDigitChar n up ≠ '-'
    ∧ isJsWS (hexDigitChar n up) = false
    ∧ hexDigitChar n up ≠ ' '
    ∧ jsToLower (hexDigitChar n up) = hexDigitChar n false
    ∧ hexValAny (hexDigitChar n false) = some n := by
  interval_cases n <;> cases up <;> decide

lemma remove0x_cons_of (a : Char) (t : List Char)
    (h : a ≠ '0' ∨ headNotX t) : remove0x (a :: t) = a :: remove0x t := by
  cases t with
  | nil => rfl
  | cons b rest =>
    by_cases hcond : a = '0' ∧ (b = 'x' ∨ b = 'X')
    · exfalso
      rcases h with h | h
      · exact h hcond.1
      · rcases hcond.2 with hb | hb
        · exact h.1 hb
        · exact h.2 hb
    · simp only [remove0x, if_neg hcond]

lemma renderHexInput_cons (f : HexFmt) (b : Nat) (l : List (HexFmt × Nat)) :
    renderHexInput ((f, b) :: l) = renderHexByte f b ++ renderHexInput l := by
  simp [renderHexInput]

lemma headNotX_render (l : List (HexFmt × Nat))
    (h : ∀ p ∈ l, p.2 < 256) : headNotX (renderHexInput l) := by
  cases l with
  | nil => trivial
  | cons p l' =>
    obtain ⟨f, b⟩ := p
    have hb : b < 256 := h (f, b) (List.mem_cons_self _ _)
    have hd1 := hexDigitChar_facts (b / 16) f.hiUpper (by omega)
    rw [renderHexInput_cons]
    unfold renderHexByte
    by_cases hp : f.pre
    · simp only [hp, if_true]
      exact ⟨by decide, by decide⟩
    · simp only [hp, if_false, List.nil_append]
      exact ⟨hd1.1, hd1.2.1⟩

lemma remove0x_0x (c : Char) (hc : c = 'x' ∨ c = 'X') (t : List Char) :
    remove0x ('0' :: c :: t) = remove0x t := by
  rcases hc with rfl | rfl <;> simp [remove0x]

lemma remove0x_cons_digit (a c : Char) (t : List Char)
    (h1 : c ≠ 'x') (h2 : c ≠ 'X') :
    remove0x (a :: c :: t) = a :: remove0x (c :: t) := by
  have : ¬ (a = '0' ∧ (c = 'x' ∨ c = 'X')) := by
    rintro ⟨-, hc | hc⟩
    · exact h1 hc
    · exact h2 hc
  simp only [remove0x, if_neg this]

lemma remove0x_singleton (c : Char) : remove0x [c] = [c] := rfl

lemma remove0x_render (l : List (HexFmt × Nat)) (h : ∀ p ∈ l, p.2 < 256) :
    remove0x (renderHexInput l)
      = (l.map fun p => [hexDigitChar (p.2 / 16) p.1.hiUpper,
          hexDigitChar (p.2 % 16) p.1.loUpper]
          ++ (if p.1.wsAfter then [' '] else [])).flatten := by
  induction l with
  | nil => rfl
  | cons p l' ih =>
    obtain ⟨f, b⟩ := p
    have hb : b < 256 := h (f, b) (List.mem_cons_self _ _)
    have h' : ∀ q ∈ l', q.2 < 256 := fun q hq => h q (List.mem_cons_of_mem _ hq)
    have hd2 := hexDigitChar_facts (b % 16) f.loUpper (by omega)
    have hrest := headNotX_render l' h'
    have tailEq : remove0x (hexDigitChar (b % 16) f.loUpper
          :: ((if f.wsAfter then [' '] else []) ++ renderHexInput l'))
        = hexDigitChar (b % 16) f.loUpper
          :: ((if f.wsAfter then [' '] else []) ++ remove0x (renderHexInput l')) := by
      by_cases hws : f.wsAfter
      · simp only [hws, if_true, List.singleton_append]
        rw [remove0x_cons_digit _ _ _ (by decide) (by decide),
            remove0x_cons_of _ _ (Or.inl (by decide))]
      · simp only [hws, if_false, List.nil_append]
        exact remove0x_cons_of _ _ (Or.inr hrest)
    have core : remove0x (hexDigitChar (b / 16) f.hiUpper
          :: hexDigitChar (b % 16) f.loUpper
          :: ((if f.wsAfter then [' '] else []) ++ renderHexInput l'))
        = hexDigitChar (b / 16) f.hiUpper :: hexDigitChar (b % 16) f.loUpper
          :: ((if f.wsAfter then [' '] else [])
              ++ remove0x (renderHexInput l')) := by
      rw [remove0x_cons_digit _ _ _ hd2.1 hd2.2.1, tailEq]
    rw [renderHexInput_cons]
    simp only [List.map_cons, List.flatten_cons]
    unfold renderHexByte
    rw [← ih h']
    by_cases hp : f.pre
    · rw [if_pos hp]
      simp only [List.cons_append, List.nil_append, List.append_assoc]
      rw [remove0x_0x _ (by by_cases hpu : f.preUpper <;> simp [hpu]) _]
      rw [core]
    · rw [if_neg hp]
      simp only [List.cons_append, List.nil_append, List.append_assoc]
      rw [core]

lemma cleanPairs_render (l : List (HexFmt × Nat)) (h : ∀ p ∈ l, p.2 < 256) :
    (((l.map fun p => [hexDigitChar (p.2 / 16) p.1.hiUpper,
        hexDigitChar (p.2 % 16) p.1.loUpper]
        ++ (if p.1.wsAfter then [' '] else [])).flatten.filter
          fun c => !isJsWS c).map jsToLower)
      = (l.map fun p => [hexDigitChar (p.2 / 16) false,
          hexDigitChar (p.2 % 16) false]).flatten := by
  induction l with
  | nil => rfl
  | cons p l' ih =>
    obtain ⟨f, b⟩ := p
    have hb : b < 256 := h (f, b) (List.mem_cons_self _ _)
    have h' : ∀ q ∈ l', q.2 < 256 := fun q hq => h q (List.mem_cons_of_mem _ hq)
    have hd1 := hexDigitChar_facts (b / 16) f.hiUpper (by omega)
    have hd2 := hexDigitChar_facts (b % 16) f.loUpper (by omega)
    simp only [List.map_cons, List.flatten_cons, List.filter_append,
      List.map_append]
    rw [ih h']
    congr 1
    by_cases hws : f.wsAfter
    · rw [if_pos hws]
      simp [List.filter, hd1.2.2.2.2.1, hd2.2.2.2.2.1,
        hd1.2.2.2.2.2.2.1, hd2.2.2.2.2.2.2.1]
      decide
    · rw [if_neg hws]
      simp [List.filter, hd1.2.2.2.2.1, hd2.2.2.2.2.1,
        hd1.2.2.2.2.2.2.1, hd2.2.2.2.2.2.2.1]

lemma jsParseIntHex2_digits (v : Nat) (hv : v < 256) :
    jsParseIntHex2 (hexDigitChar (v / 16) false) (hexDigitChar (v % 16) false)
      = some (v : Int) := by
  have hd1 := hexDigitChar_facts (v / 16) false (by omega)
  have hd2 := hexDigitChar_facts (v % 16) false (by omega)
  unfold jsParseIntHex2
  have hno : ¬ (hexDigitChar (v / 16) false = '0'
      ∧ (hexDigitChar (v % 16) false = 'x'
         ∨ hexDigitChar (v % 16) false = 'X')) := by
    rintro ⟨-, hc | hc⟩
    · exact hd2.1 hc
    · exact hd2.2.1 hc
  rw [if_neg hd1.2.2.1, if_neg hd1.2.2.2.1, if_neg hno]
  rw [hd1.2.2.2.2.2.2.2, hd2.2.2.2.2.2.2.2]
  have := Nat.div_add_mod v 16
  simp only []
  congr 1
  omega

lemma kotlinHexPair_digits (v : Nat) (hv : v < 256) :
    kotlinHexPair (hexDigitChar (v / 16) false) (hexDigitChar (v % 16) false)
      = some (v : Int) := by
  have hd1 := hexDigitChar_facts (v / 16) false (by omega)
  have hd2 := hexDigitChar_facts (v % 16) false (by omega)
  unfold kotlinHexPair
  rw [if_neg hd1.2.2.1, if_neg hd1.2.2.2.1]
  rw [hd1.2.2.2.2.2.2.2, hd2.2.2.2.2.2.2.2]
  simp only []
  congr 1
  omega

lemma decodePairsJS_pairs (l : List (HexFmt × Nat)) (h : ∀ p ∈ l, p.2 < 256) :
    decodePairsJS ((l.map fun p => [hexDigitChar (p.2 / 16) false,
        hexDigitChar (p.2 % 16) false]).flatten)
      = some (l.map fun p => p.2) := by
  induction l with
  | nil => rfl
  | cons p l' ih =>
    obtain ⟨f, b⟩ := p
    have hb : b < 256 := h (f, b) (List.mem_cons_self _ _)
    have h' : ∀ q ∈ l', q.2 < 256 := fun q hq => h q (List.mem_cons_of_mem _ hq)
    simp only [List.map_cons, List.flatten_cons, List.cons_append,
      List.nil_append]
    show decodePairsJS (hexDigitChar (b / 16) false
        :: hexDigitChar (b % 16) false :: _) = _
    unfold decodePairsJS
    rw [jsParseIntHex2_digits b hb, ih h']
    simp only [Option.map_some]
    have hm : (((b : Int) % 256)).toNat = b := by omega
    rw [hm]
    rfl

lemma decodePairsKotlin_pairs (l : List (HexFmt × Nat))
    (h : ∀ p ∈ l, p.2 < 256) :
    decodePairsKotlin ((l.map fun p => [hexDigitChar (p.2 / 16) false,
        hexDigitChar (p.2 % 16) false]).flatten)
      = some (l.map fun p => p.2) := by
  induction l with
  | nil => rfl
  | cons p l' ih =>
    obtain ⟨f, b⟩ := p
    have hb : b < 256 := h (f, b) (List.mem_cons_self _ _)
    have h' : ∀ q ∈ l', q.2 < 256 := fun q hq => h q (List.mem_cons_of_mem _ hq)
    simp only [List.map_cons, List.flatten_cons, List.cons_append,
      List.nil_append]
    show decodePairsKotlin (hexDigitChar (b / 16) false
        :: hexDigitChar (b % 16) false :: _) = _
    unfold decodePairsKotlin
    rw [kotlinHexPair_digits b hb, ih h']
    simp only [Option.map_some]
    have hm : (((b : Int) % 256)).toNat = b := by omega
    rw [hm]
    rfl

lemma pairs_flatten_length (l : List (HexFmt × Nat)) :
    ((l.map fun p => [hexDigitChar (p.2 / 16) false,
        hexDigitChar (p.2 % 16) false]).flatten).length = 2 * l.length := by
  induction l with
  | nil => rfl
  | cons p l' ih =>
    simp only [List.map_cons, List.flatten_cons, List.length_append, ih,
      List.length_cons, List.length_nil, List.length_singleton]
    omega

lemma parseExpectHexTS_render (l : List (HexFmt × Nat)) (hne : l ≠ [])
    (h : ∀ p ∈ l, p.2 < 256) :
    parseExpectHexTS (renderHexInput l) = some (l.map fun p => p.2) := by
  have hclean : cleanHexTS (renderHexInput l)
      = (l.map fun p => [hexDigitChar (p.2 / 16) false,
          hexDigitChar (p.2 % 16) false]).flatten := by
    unfold cleanHexTS
    rw [remove0x_render l h]
    exact cleanPairs_render l h
  unfold parseExpectHexTS
  rw [hclean]
  rw [if_neg ?_]
  · exact decodePairsJS_pairs l h
  · rw [pairs_flatten_length]
    have : l.length ≠ 0 := fun hz => hne (List.length_eq_zero.mp hz)
    omega

lemma cleanPairsKotlin_render (l : List (HexFmt × Nat))
    (h : ∀ p ∈ l, p.2 < 256) (hpre : ∀ p ∈ l, p.1.pre = false) :
    cleanHexKotlin (renderHexInput l)
      = (l.map fun p => [hexDigitChar (p.2 / 16) false,
          hexDigitChar (p.2 % 16) false]).flatten := by
  unfold cleanHexKotlin
  induction l with
  | nil => rfl
  | cons p l' ih =>
    obtain ⟨f, b⟩ := p
    have hb : b < 256 := h (f, b) (List.mem_cons_self _ _)
    have h' : ∀ q ∈ l', q.2 < 256 := fun q hq => h q (List.mem_cons_of_mem _ hq)
    have hpre' : ∀ q ∈ l', q.1.pre = false :=
      fun q hq => hpre q (List.mem_cons_of_mem _ hq)
    have hfp : f.pre = false := hpre (f, b) (List.mem_cons_self _ _)
    have hd1 := hexDigitChar_facts (b / 16) f.hiUpper (by omega)
    have hd2 := hexDigitChar_facts (b % 16) f.loUpper (by omega)
    rw [renderHexInput_cons]
    simp only [List.map_cons, List.flatten_cons, List.filter_append,
      List.map_append]
    rw [ih h' hpre']
    congr 1
    unfold renderHexByte
    rw [hfp]
    simp only [Bool.false_eq_true, if_false, List.nil_append]
    by_cases hws : f.wsAfter
    · rw [if_pos hws]
      simp [List.filter, hd1.2.2.2.2.2.1, hd2.2.2.2.2.2.1,
        hd1.2.2.2.2.2.2.1, hd2.2.2.2.2.2.2.1]
    · rw [if_neg hws]
      simp [List.filter, hd1.2.2.2.2.2.1, hd2.2.2.2.2.2.1,
        hd1.2.2.2.2.2.2.1, hd2.2.2.2.2.2.2.1]

lemma kotlinHexToBytes_render (l : List (HexFmt × Nat)) (hne : l ≠ [])
    (h : ∀ p ∈ l, p.2 < 256) (hpre : ∀ p ∈ l, p.1.pre = false) :
    kotlinHexToBytes (renderHexInput l) = some (l.map fun p => p.2) := by
  unfold kotlinHexToBytes
  rw [cleanPairsKotlin_render l h hpre]
  rw [if_neg ?_]
  · exact decodePairsKotlin_pairs l h
  · rw [pairs_flatten_length]
    have : l.length ≠ 0 := fun hz => hne (List.length_eq_zero.mp hz)
    omega

lemma parseExpectHexTS_invalid (s : List Char)
    (h : cleanHexTS s = [] ∨ (cleanHexTS s).length % 2 = 1) :
    parseExpectHexTS s = none := by
  unfold parseExpectHexTS
  rw [if_pos ?_]
  rcases h with h | h
  · exact Or.inl (by rw [h]; rfl)
  · exact Or.inr h

lemma kotlinHexToBytes_invalid (s : List Char)
    (h : cleanHexKotlin s = [] ∨ (cleanHexKotlin s).length % 2 = 1) :
    kotlinHexToBytes s = none := by
  unfold kotlinHexToBytes
  rw [if_pos ?_]
  rcases h with h | h
  · exact Or.inl (by rw [h]; rfl)
  · exact Or.inr h

/-- C8 counterexample: the Android Helpers.hexToBytes rejects the 0x
separator that the claim says every expect string normalizer ignores
(and that the TypeScript parseExpectBytes does accept on the same input),
and likewise rejects a tab where the claim says all whitespace is
ignored. -/
theorem c8_counterexample_android_hex :
    kotlinHexToBytes ("0x1b".toList) = none
    ∧ parseExpectHexTS ("0x1b".toList) = some [27]
    ∧ kotlinHexToBytes ("1b\t40".toList) = none
    ∧ parseExpectHexTS ("1b\t40".toList) = some [27, 64] :=
  ⟨rfl, rfl, rfl, rfl⟩

/-- C8 amended: the TypeScript parseExpectBytes string normalizer ignores
whitespace and optional 0x / 0X prefixes in any per-byte case mix and
yields the literal byte sequence, and rejects inputs whose cleaned text is
empty or of odd length; the Android Helpers.hexToBytes does the same but
ignores only space characters and recognizes no 0x prefixes. -/
theorem c8_expect_hex_normalization (l : List (HexFmt × Nat))
    (s : List Char) (hne : l ≠ []) (hb : ∀ p ∈ l, p.2 < 256) :
    parseExpectHexTS (renderHexInput l) = some (l.map fun p => p.2)
    ∧ ((∀ p ∈ l, p.1.pre = false) →
        kotlinHexToBytes (renderHexInput l) = some (l.map fun p => p.2))
    ∧ (cleanHexTS s = [] ∨ (cleanHexTS s).length % 2 = 1 →
        parseExpectHexTS s = none)
    ∧ (cleanHexKotlin s = [] ∨ (cleanHexKotlin s).length % 2 = 1 →
        kotlinHexToBytes s = none)
    ∧ parseExpectHexTS [] = none
    ∧ kotlinHexToBytes [] = none :=
  ⟨parseExpectHexTS_render l hne hb,
   fun hpre => kotlinHexToBytes_render l hne hb hpre,
   parseExpectHexTS_invalid s,
   kotlinHexToBytes_invalid s,
   rfl, rfl⟩

/-- Witness for C8: the formatted input 0x1B 40 (one prefixed upper-case
byte with a trailing space, one plain lower-case byte) parses to 27, 64 on
the TypeScript side; the same bytes without prefixes parse on Android; the
single character 1 is rejected by both. -/
theorem c8_expect_hex_normalization_witness :
    parseExpectHexTS (renderHexInput
        [(⟨true, false, true, false, true⟩, 27),
         (⟨false, false, false, false, false⟩, 64)])
      = some ([(⟨true, false, true, false, true⟩, 27),
               ((⟨false, false, false, false, false⟩ : HexFmt), 64)].map
          fun p => p.2)
    ∧ kotlinHexToBytes (renderHexInput
        [((⟨false, false, true, false, true⟩ : HexFmt), 27),
         (⟨false, false, false, false, false⟩, 64)])
      = some ([(⟨false, false, true, false, true⟩, 27),
               ((⟨false, false, false, false, false⟩ : HexFmt), 64)].map
          fun p => p.2)
    ∧ parseExpectHexTS ['1'] = none
    ∧ kotlinHexToBytes ['1'] = none :=
  ⟨(c8_expect_hex_normalization
      [(⟨true, false, true, false, true⟩, 27),
       (⟨false, false, false, false, false⟩, 64)] []
      (by decide) (by decide)).1,
   (c8_expect_hex_normalization
      [(⟨false, false, true, false, true⟩, 27),
       (⟨false, false, false, false, false⟩, 64)] []
      (by decide) (by decide)).2.1 (by decide),
   (c8_expect_hex_normalization
      [(⟨true, false, true, false, true⟩, 27)] ['1']
      (by decide) (by decide)).2.2.1 (by decide),
   (c8_expect_hex_normalization
      [(⟨true, false, true, false, true⟩, 27)] ['1']
      (by decide) (by decide)).2.2.2.1 (by decide)⟩
